import Mathlib

/-!
Verification of the blog's content pipeline and social-card generator.

The development shallowly embeds the code of the repository:

* the Open Graph card route (its `markup` template, its `GET` handler and its
  `getStaticPaths` enumeration, here `ogGetStaticPaths`) is translated from
  `src/pages/og-image/[slug].png.ts`-style source (part_006 of the sources);
* the blog listing route calls `getAllPosts`, `sortMDByDate` and Astro's
  `paginate` (part_005 of the sources); the bodies of those three helpers are
  not among the provided sources, so they are modelled from the specification
  (each such definition carries a doc comment starting with
  `Modelled from the spec:`).

JavaScript strings are modelled as Lean `String`, JavaScript `Date` values as
`Int` epoch milliseconds, and JavaScript truthiness of the optional `ogImage`
field explicitly via `ogTruthy`.  The satori/resvg rasterization pipeline is an
external library; `GET` takes the rasterizer and the date formatter as explicit
function arguments, so every theorem quantifies over them.
-/

namespace Blog

/-- Byte-wise comparison of character lists, modelling the ordering JavaScript
uses on strings (code-unit lexicographic order) for the slug tie-break. -/
def charListLE : List Char → List Char → Bool
  | [], _ => true
  | _ :: _, [] => false
  | a :: as, b :: bs =>
    if a.toNat < b.toNat then true
    else if b.toNat < a.toNat then false
    else charListLE as bs

/-- Modelling of JavaScript `s.startsWith(pat)` over the characters of the
strings. -/
def charsStart : List Char → List Char → Bool
  | _, [] => true
  | [], _ :: _ => false
  | c :: cs, d :: ds => c == d && charsStart cs ds

/-- JavaScript `s.startsWith(pat)`. -/
def jsStartsWith (s pat : String) : Bool := charsStart s.data pat.data

/-- Front-matter of a post, after content-collection validation.  Dates are
epoch milliseconds; `ogImage` is the optional externally supplied image. -/
structure PostData where
  title : String
  description : String
  publishDate : Int
  updatedDate : Option Int
  tags : List String
  draft : Bool
  ogImage : Option String
deriving DecidableEq

/-- A content-collection entry: slug plus validated front-matter. -/
structure Post where
  slug : String
  data : PostData
deriving DecidableEq

/-- JavaScript truthiness of the `ogImage` field as used by the filter
`!data.ogImage` in the card route: absent and the empty string are falsy. -/
def ogTruthy : Option String → Bool
  | none => false
  | some s => !(s == "")

/-- Effective date of a post: `updatedDate ?? publishDate`. -/
def effectiveDate (p : Post) : Int := p.data.updatedDate.getD p.data.publishDate

/-- Slug comparison (code-unit lexicographic order). -/
def slugLE (s t : String) : Prop := charListLE s.data t.data = true

/-- Sort ordering of the listing: descending by effective date, ties broken by
slug ascending. -/
def postBefore (a b : Post) : Prop :=
  effectiveDate b < effectiveDate a ∨
    (effectiveDate a = effectiveDate b ∧ slugLE a.slug b.slug)

instance : DecidableRel postBefore := fun a b => by
  unfold postBefore slugLE
  infer_instance

/-- Modelled from the spec: `sortMDByDate` (its body is not among the provided
sources; only its callers are).  It orders posts descending by effective date,
breaking ties by slug ascending for determinism. -/
def sortMDByDate (posts : List Post) : List Post :=
  List.insertionSort postBefore posts

/-- A paginated listing page: its slice of posts, its 1-indexed number and the
total number of pages. -/
structure BlogPage where
  data : List Post
  currentPage : Nat
  lastPage : Nat
deriving DecidableEq

/-- Modelled from the spec: Astro's `paginate` helper as invoked by the listing
route — slice the sorted sequence into contiguous chunks of `pageSize`; page N
(1-indexed) holds offsets (N-1)*pageSize .. N*pageSize-1; the total page count
is the ceiling of length / pageSize, so the empty input yields zero pages. -/
def paginate (posts : List Post) (pageSize : Nat) : List BlogPage :=
  let total := (posts.length + pageSize - 1) / pageSize
  (List.range total).map
    (fun i => ⟨(posts.drop (i * pageSize)).take pageSize, i + 1, total⟩)

/-- Modelled from the spec: `getAllPosts` (its body is not among the provided
sources).  It reads the content store and, in a production context, keeps only
non-draft posts; in a preview/development context it returns all posts.  The
production toggle is configuration, passed here explicitly. -/
def getAllPosts (production : Bool) (store : List Post) : List Post :=
  if production then store.filter (fun p => !p.data.draft) else store

/-- The paginated-listing route (part_005): load the posts, sort them, paginate
with `MAX_POSTS_PER_PAGE = 10`. -/
def blogGetStaticPaths (production : Bool) (store : List Post) : List BlogPage :=
  paginate (sortMDByDate (getAllPosts production store)) 10

/-- A raw content document before validation: front-matter fields as written,
with the dates still unparsed strings. -/
structure RawPost where
  slug : String
  title : String
  description : String
  publishDate : Option String
  updatedDate : Option String
  tags : List String
  draft : Bool
  ogImage : Option String
deriving DecidableEq

/-- Validation failure of a post's required metadata, identifying the offending
slug. -/
structure ContentValidationError where
  slug : String
deriving DecidableEq

/-- Modelled from the spec: the Post Loader's validation step (the content
schema is not among the provided sources).  A post whose `publishDate` is
missing or unparsable fails the whole load with a `ContentValidationError`
naming the offending slug; no partial listing is produced.  The date parser is
passed explicitly. -/
def loadPosts (parseDate : String → Option Int) :
    List RawPost → Except ContentValidationError (List Post)
  | [] => .ok []
  | rp :: rest =>
    match rp.publishDate.bind parseDate with
    | none => .error ⟨rp.slug⟩
    | some d =>
      match loadPosts parseDate rest with
      | .error e => .error e
      | .ok ps =>
        .ok (⟨rp.slug,
          ⟨rp.title, rp.description, d, rp.updatedDate.bind parseDate,
            rp.tags, rp.draft, rp.ogImage⟩⟩ :: ps)

/-- Site configuration shown in the card footer. -/
structure SiteConfig where
  title : String
  author : String

/-- Modelled from the spec: the site-config module is not among the provided
sources; its two strings appear verbatim in the card footer and no claim
depends on their values. -/
def siteConfig : SiteConfig := ⟨"rwilinski.ai", "Rafal Wilinski"⟩

/-- One element of the card's vector document: tag, tailwind classes, direct
text content. -/
structure SvgElement where
  tag : String
  tw : String
  text : String
deriving DecidableEq

/-- The card template of the OG route, in document order.  It interpolates the
title and the (already formatted) date string; the date paragraph is emitted
unconditionally, with whatever text `pubDate` holds. -/
def markup (title : String) (pubDate : String) : List SvgElement :=
  [ ⟨"div", "flex flex-col w-full h-full bg-[#1d1f21] text-[#c9cacc]", ""⟩,
    ⟨"div", "flex flex-col flex-1 w-full p-10 justify-center", ""⟩,
    ⟨"p", "text-2xl mb-6", pubDate⟩,
    ⟨"h1", "text-7xl font-bold leading-snug text-white", title⟩,
    ⟨"div", "flex items-center justify-between w-full p-10 border-t border-[#2bbc89] text-xl", ""⟩,
    ⟨"div", "flex items-center", ""⟩,
    ⟨"p", "ml-3 font-semibold", siteConfig.title⟩,
    ⟨"p", "", "by " ++ siteConfig.author⟩ ]

/-- The date paragraph of the template, holding the given text. -/
def dateParagraph (s : String) : SvgElement := ⟨"p", "text-2xl mb-6", s⟩

/-- The title heading of the template, holding the given text. -/
def titleHeading (t : String) : SvgElement :=
  ⟨"h1", "text-7xl font-bold leading-snug text-white", t⟩

/-- The props the OG route passes from `getStaticPaths` to `GET`. -/
structure CardProps where
  pubDate : Int
  skipDate : Bool
  title : String
deriving DecidableEq

/-- The date string `GET` builds: empty when `skipDate`, otherwise the
formatted date behind a `//` marker. -/
def postDateString (props : CardProps) (fmt : Int → String) : String :=
  if props.skipDate then "" else "//" ++ fmt props.pubDate

/-- The HTTP response of the card endpoint. -/
structure HttpResponse where
  body : List Nat
  cacheControl : String
  contentType : String
deriving DecidableEq

/-- The `GET` handler of the OG route: build the markup from the props,
rasterize it (satori + resvg, passed here as the explicit `rasterize`
argument), and answer with immutable caching headers. -/
def GET (rasterize : List SvgElement → List Nat) (fmt : Int → String)
    (props : CardProps) : HttpResponse :=
  ⟨rasterize (markup props.title (postDateString props fmt)),
    "public, max-age=31536000, immutable",
    "image/png"⟩

/-- JavaScript `new Date(2020, 1, 1)` (February 1, 2020) as epoch milliseconds;
no claim depends on the exact value. -/
def jsDateFeb2020 : Int := 1580515200000

/-- The synthetic home-page entry the OG route appends to the posts before
filtering: slug `index`, fixed title, `ogImage: false`, and `updatedDate` set
to the build-time clock (`new Date()`), passed here explicitly as `now`. -/
def indexPost (now : Int) : Post :=
  ⟨"index",
    ⟨"LLMs, RAGs, Agents and Applied AI", "", jsDateFeb2020, some now,
      [], false, none⟩⟩

/-- One enumeration entry of the OG route: the slug route param and the props
handed to `GET`. -/
structure CardPath where
  slug : String
  props : CardProps
deriving DecidableEq

/-- The map step of the OG route's `getStaticPaths`: `pubDate` is
`updatedDate ?? publishDate`, `skipDate` is `!post.slug.startsWith("/content")`. -/
def toCardPath (p : Post) : CardPath :=
  ⟨p.slug,
    ⟨p.data.updatedDate.getD p.data.publishDate,
      !(jsStartsWith p.slug "/content"),
      p.data.title⟩⟩

/-- The OG route's `getStaticPaths`: all loaded posts plus the synthetic index
entry, dropping every entry whose `ogImage` is truthy, mapped to route params
and props. -/
def ogGetStaticPaths (now : Int) (production : Bool) (store : List Post) :
    List CardPath :=
  ((getAllPosts production store ++ [indexPost now]).filter
      (fun p => !(ogTruthy p.data.ogImage))).map toCardPath

/-- Outcome of requesting a card by slug. -/
inductive CardRequestResult where
  | notFound
  | card (r : HttpResponse)
deriving DecidableEq

/-- Modelled from the spec: static-file routing (provided by Astro, not by the
repository) serves the `GET` response for a slug enumerated by
`getStaticPaths` and a not-found response for any other slug. -/
def requestCard (rasterize : List SvgElement → List Nat) (fmt : Int → String)
    (now : Int) (production : Bool) (store : List Post) (slug : String) :
    CardRequestResult :=
  match (ogGetStaticPaths now production store).find?
      (fun cp => cp.slug == slug) with
  | none => .notFound
  | some cp => .card (GET rasterize fmt cp.props)

/-- A concrete date formatter used by witnesses; no claim depends on the
format. -/
def formatMillis : Int → String := fun t => toString t

/-- Serialization of one element, used by the concrete witness rasterizer. -/
def renderElement (e : SvgElement) : String :=
  "<" ++ e.tag ++ " tw=" ++ e.tw ++ ">" ++ e.text ++ "</" ++ e.tag ++ ">"

/-- A concrete deterministic rasterizer used by witnesses: serialize the
document and take the character codes as bytes. -/
def svgBytes (doc : List SvgElement) : List Nat :=
  ((doc.map renderElement).foldl (fun a b => a ++ b) "").data.map Char.toNat

/-- Concrete draft post used by witnesses. -/
def postA : Post := ⟨"a", ⟨"Post A", "", 100, none, [], true, none⟩⟩

/-- Concrete non-draft post used by witnesses. -/
def postB : Post := ⟨"b", ⟨"Post B", "", 200, none, [], false, none⟩⟩

/-- Concrete post carrying an external `ogImage`, used by witnesses. -/
def postC : Post :=
  ⟨"c", ⟨"Post C", "", 300, some 400, [], false, some "https://x/y.png"⟩⟩

/-- Concrete date parser used by witnesses. -/
def demoParseDate : String → Option Int :=
  fun s => if s == "11 June 2024" then some 1718064000000 else none

/-- Concrete raw post with a parsable date, used by witnesses. -/
def rawGood : RawPost := ⟨"good", "G", "", some "11 June 2024", none, [], false, none⟩

/-- Concrete raw post with an unparsable date, used by witnesses. -/
def rawBad : RawPost := ⟨"bad", "B", "", some "not a date", none, [], false, none⟩

/-- Concrete post used by the tie-break witness: same effective date as
`pBeta`, smaller slug. -/
def pAlpha : Post := ⟨"alpha", ⟨"A", "", 100, none, [], false, none⟩⟩

/-- Concrete post used by the tie-break witness: same effective date as
`pAlpha`, larger slug. -/
def pBeta : Post := ⟨"beta", ⟨"B", "", 100, none, [], false, none⟩⟩

/-! Helper lemmas about the slug order, sorting and pagination. -/

theorem charListLE_total : ∀ as bs : List Char,
    charListLE as bs = true ∨ charListLE bs as = true := by
  intro as
  induction as with
  | nil => intro bs; left; rfl
  | cons a as ih =>
    intro bs
    cases bs with
    | nil => right; rfl
    | cons b bs =>
      simp only [charListLE]
      rcases Nat.lt_trichotomy a.toNat b.toNat with h | h | h
      · left
        simp [h]
      · rcases ih bs with h4 | h4
        · left
          simp [h, h4]
        · right
          simp [h.symm, h4]
      · right
        simp [h]

theorem charListLE_trans : ∀ as bs cs : List Char,
    charListLE as bs = true → charListLE bs cs = true → charListLE as cs = true := by
  intro as
  induction as with
  | nil => intro bs cs _ _; rfl
  | cons a as ih =>
    intro bs cs hab hbc
    cases bs with
    | nil => simp [charListLE] at hab
    | cons b bs =>
      cases cs with
      | nil => simp [charListLE] at hbc
      | cons c cs =>
        simp only [charListLE] at hab hbc ⊢
        split_ifs at hab hbc ⊢ with h1 h2 h3 h4 h5 h6 <;>
          first
            | rfl
            | omega
            | simp at hab
            | simp at hbc
            | exact ih bs cs hab hbc

theorem char_toNat_inj {a b : Char} (h : a.toNat = b.toNat) : a = b := by
  have : Char.ofNat a.toNat = Char.ofNat b.toNat := by rw [h]
  rwa [Char.ofNat_toNat, Char.ofNat_toNat] at this

theorem charListLE_antisymm : ∀ as bs : List Char,
    charListLE as bs = true → charListLE bs as = true → as = bs := by
  intro as
  induction as with
  | nil =>
    intro bs _ hba
    cases bs with
    | nil => rfl
    | cons b bs => simp [charListLE] at hba
  | cons a as ih =>
    intro bs hab hba
    cases bs with
    | nil => simp [charListLE] at hab
    | cons b bs =>
      simp only [charListLE] at hab hba
      split_ifs at hab hba with h1 h2 <;>
        first
          | omega
          | simp at hab
          | simp at hba
          | (have heq : a = b := char_toNat_inj (by omega)
             rw [heq, ih bs hab hba])

instance : IsTotal Post postBefore := by
  constructor
  intro a b
  rcases Int.lt_trichotomy (effectiveDate a) (effectiveDate b) with h | h | h
  · right
    exact Or.inl h
  · rcases charListLE_total a.slug.data b.slug.data with hs | hs
    · left
      exact Or.inr ⟨h, hs⟩
    · right
      exact Or.inr ⟨h.symm, hs⟩
  · left
    exact Or.inl h

instance : IsTrans Post postBefore := by
  constructor
  intro a b c hab hbc
  rcases hab with h1 | ⟨h1, h1s⟩ <;> rcases hbc with h2 | ⟨h2, h2s⟩
  · exact Or.inl (by omega)
  · exact Or.inl (by omega)
  · exact Or.inl (by omega)
  · exact Or.inr ⟨by omega, charListLE_trans _ _ _ h1s h2s⟩

theorem postBefore_antisymm_slug {a b : Post} (hab : postBefore a b)
    (hba : postBefore b a) : a.slug = b.slug := by
  rcases hab with h1 | ⟨h1, h1s⟩ <;> rcases hba with h2 | ⟨h2, h2s⟩ <;> try omega
  exact String.ext (charListLE_antisymm _ _ h1s h2s)

theorem pairwise_perm_eq {α : Type} {r : α → α → Prop} :
    ∀ l₁ l₂ : List α, l₁.Perm l₂ → l₁.Pairwise r → l₂.Pairwise r →
      (∀ a ∈ l₁, ∀ b ∈ l₁, r a b → r b a → a = b) → l₁ = l₂ := by
  intro l₁
  induction l₁ with
  | nil =>
    intro l₂ hp _ _ _
    exact hp.nil_eq
  | cons a t ih =>
    intro l₂ hp h1 h2 hanti
    cases l₂ with
    | nil => exact absurd hp.symm.nil_eq (by simp)
    | cons b t₂ =>
      have hab : a = b := by
        by_cases h : a = b
        · exact h
        · have hbmem : b ∈ a :: t := hp.symm.subset (List.mem_cons_self b t₂)
          have hamem : a ∈ b :: t₂ := hp.subset (List.mem_cons_self a t)
          have hbt : b ∈ t := by
            rcases List.mem_cons.mp hbmem with he | he
            · exact absurd he.symm h
            · exact he
          have hat : a ∈ t₂ := by
            rcases List.mem_cons.mp hamem with he | he
            · exact absurd he h
            · exact he
          have hrab : r a b := (List.pairwise_cons.mp h1).1 b hbt
          have hrba : r b a := (List.pairwise_cons.mp h2).1 a hat
          exact hanti a (List.mem_cons_self a t) b (List.mem_cons_of_mem _ hbt) hrab hrba
      subst hab
      have hpt : t.Perm t₂ := hp.cons_inv
      have ht : t = t₂ :=
        ih t₂ hpt (List.pairwise_cons.mp h1).2 (List.pairwise_cons.mp h2).2
          (fun x hx y hy => hanti x (List.mem_cons_of_mem _ hx) y (List.mem_cons_of_mem _ hy))
      rw [ht]

theorem getAllPosts_subset (production : Bool) (store : List Post) :
    getAllPosts production store ⊆ store := by
  rw [getAllPosts]
  split
  · exact List.filter_subset' store
  · exact fun x hx => hx

theorem draft_not_in_getAllPosts (store : List Post) (p : Post)
    (hd : p.data.draft = true) : p ∉ getAllPosts true store := by
  rw [getAllPosts]
  simp [List.mem_filter, hd]

theorem paginate_length (posts : List Post) (k : Nat) :
    (paginate posts k).length = (posts.length + k - 1) / k := by
  simp [paginate]

theorem paginate_page_data (posts : List Post) (k i : Nat)
    (h : i < (paginate posts k).length) :
    ((paginate posts k).get ⟨i, h⟩).data = (posts.drop (i * k)).take k := by
  simp [paginate, List.get_eq_getElem]

theorem pageCount_succ (m k : Nat) (hk : 0 < k) :
    (m + 1 + k - 1) / k = m / k + 1 := by
  rw [show m + 1 + k - 1 = m + k by omega, Nat.add_div_right m hk]

theorem skipDate_blank_line (rasterize : List SvgElement → List Nat)
    (fmt : Int → String) (p : CardProps) (hskip : p.skipDate = true) :
    postDateString p fmt = "" ∧
      (GET rasterize fmt p).body = rasterize (markup p.title "") ∧
      dateParagraph "" ∈ markup p.title "" := by
  have h1 : postDateString p fmt = "" := by simp [postDateString, hskip]
  refine ⟨h1, ?_, ?_⟩
  · simp only [GET, h1]
  · simp [markup, dateParagraph]

theorem full_page_size (n k i : Nat) (hk : 0 < k) (hi : i + 1 < (n + k - 1) / k) :
    min k (n - i * k) = k := by
  cases n with
  | zero =>
    rw [show 0 + k - 1 = k - 1 by omega, Nat.div_eq_of_lt (by omega)] at hi
    omega
  | succ m =>
    rw [pageCount_succ m k hk] at hi
    have h1 : i + 1 ≤ m / k := by omega
    have h2 : (i + 1) * k ≤ m := (Nat.le_div_iff_mul_le hk).mp h1
    rw [Nat.succ_mul] at h2
    omega

theorem last_page_size (n k i : Nat) (hk : 0 < k) (hlast : i + 1 = (n + k - 1) / k) :
    min k (n - i * k) = if n % k = 0 then k else n % k := by
  cases n with
  | zero =>
    rw [show 0 + k - 1 = k - 1 by omega, Nat.div_eq_of_lt (by omega)] at hlast
    omega
  | succ m =>
    rw [pageCount_succ m k hk] at hlast
    have hi : i = m / k := by omega
    subst hi
    have hdm := Nat.div_add_mod m k
    have hmlt : m % k < k := Nat.mod_lt m hk
    rw [Nat.mul_comm (m / k) k]
    rcases Nat.eq_or_lt_of_le hk with hk1 | hk2
    · rw [← hk1]
      simp [Nat.mod_one]
    · have h1k : 1 % k = 1 := Nat.mod_eq_of_lt (by omega)
      have hadd : (m + 1) % k = (m % k + 1) % k := by
        rw [Nat.add_mod m 1 k, h1k]
      rcases Nat.lt_or_ge (m % k + 1) k with hlt | hge
      · have heq : (m + 1) % k = m % k + 1 := by rw [hadd, Nat.mod_eq_of_lt hlt]
        rw [heq]
        rw [if_neg (by omega)]
        omega
      · have hke : m % k + 1 = k := by omega
        have heq : (m + 1) % k = 0 := by rw [hadd, hke, Nat.mod_self]
        rw [heq, if_pos rfl]
        omega

/-! Claim theorems. -/

/-- Claim C3: for every pageSize > 0 and post sequence, `paginate` returns
exactly ceil(n/pageSize) pages; the page at 0-based index i (page N = i+1)
holds the posts at offsets i*pageSize .. (i+1)*pageSize-1 of the input
sequence; every page but the last has exactly pageSize posts, and the last has
n mod pageSize (or pageSize when pageSize divides n). -/
theorem paginate_spec (posts : List Post) (k : Nat) (hk : 0 < k) :
    (paginate posts k).length = (posts.length + k - 1) / k ∧
      (∀ i (h : i < (paginate posts k).length),
        ((paginate posts k).get ⟨i, h⟩).data = (posts.drop (i * k)).take k) ∧
      (∀ i (h : i < (paginate posts k).length), i + 1 < (paginate posts k).length →
        ((paginate posts k).get ⟨i, h⟩).data.length = k) ∧
      (∀ i (h : i < (paginate posts k).length), i + 1 = (paginate posts k).length →
        ((paginate posts k).get ⟨i, h⟩).data.length =
          if posts.length % k = 0 then k else posts.length % k) := by
  refine ⟨paginate_length posts k, paginate_page_data posts k, ?_, ?_⟩
  · intro i h hfull
    rw [paginate_page_data posts k i h, List.length_take, List.length_drop]
    rw [paginate_length posts k] at hfull
    exact full_page_size posts.length k i hk hfull
  · intro i h hlast
    rw [paginate_page_data posts k i h, List.length_take, List.length_drop]
    rw [paginate_length posts k] at hlast
    exact last_page_size posts.length k i hk hlast

/-- Witness for C3 at a concrete input: five posts, pageSize two. -/
theorem paginate_spec_witness :
    0 < 2 ∧
      (paginate [postA, postB, postA, postB, postA] 2).length
        = ([postA, postB, postA, postB, postA].length + 2 - 1) / 2 :=
  ⟨by decide, (paginate_spec [postA, postB, postA, postB, postA] 2 (by decide)).1⟩

/-- Claim C2: a draft post is absent from every page of the paginated listing
in a production context. -/
theorem drafts_absent_from_listing (store : List Post) (p : Post)
    (hd : p.data.draft = true) :
    ∀ page ∈ blogGetStaticPaths true store, p ∉ page.data := by
  intro page hpage hmem
  rw [blogGetStaticPaths, paginate] at hpage
  obtain ⟨i, _, rfl⟩ := List.mem_map.mp hpage
  have h1 : p ∈ sortMDByDate (getAllPosts true store) :=
    List.drop_subset _ _ (List.take_subset _ _ hmem)
  have h2 : p ∈ getAllPosts true store := by
    rw [sortMDByDate] at h1
    exact (List.perm_insertionSort postBefore _).subset h1
  exact draft_not_in_getAllPosts store p hd h2

/-- Witness for C2 at the concrete store of the claim: with a draft post `a`
and a non-draft post `b`, page 1 contains only `b`. -/
theorem drafts_absent_from_listing_witness :
    postA.data.draft = true ∧
      (⟨[postB], 1, 1⟩ : BlogPage) ∈ blogGetStaticPaths true [postA, postB] ∧
      postA ∉ (⟨[postB], 1, 1⟩ : BlogPage).data ∧
      blogGetStaticPaths true [postA, postB] = [⟨[postB], 1, 1⟩] :=
  ⟨rfl, by decide,
    drafts_absent_from_listing [postA, postB] postA rfl ⟨[postB], 1, 1⟩ (by decide),
    by decide⟩

/-- Claim C4: the sorter permutes the posts into an order that is pairwise
sorted descending by effective date with ties broken by slug ascending; the
comparison is total, and when slugs are unique the sorted order is the unique
such arrangement, hence deterministic and reproducible. -/
theorem sort_deterministic_total (posts : List Post) :
    (sortMDByDate posts).Perm posts ∧
      (sortMDByDate posts).Pairwise postBefore ∧
      (∀ a b : Post, postBefore a b ∨ postBefore b a) ∧
      (∀ l : List Post,
        (∀ a ∈ posts, ∀ b ∈ posts, a.slug = b.slug → a = b) →
        l.Perm posts → l.Pairwise postBefore → l = sortMDByDate posts) := by
  refine ⟨List.perm_insertionSort postBefore posts, ?_, ?_, ?_⟩
  · exact List.sorted_insertionSort postBefore posts
  · exact fun a b => IsTotal.total a b
  · intro l hinj hperm hpair
    have hperm2 : l.Perm (sortMDByDate posts) :=
      hperm.trans (List.perm_insertionSort postBefore posts).symm
    refine pairwise_perm_eq l (sortMDByDate posts) hperm2 hpair
      (List.sorted_insertionSort postBefore posts) ?_
    intro a ha b hb hab hba
    exact hinj a (hperm.subset ha) b (hperm.subset hb) (postBefore_antisymm_slug hab hba)

/-- Witness for C4 at a concrete input: two posts with identical effective
dates and slugs alpha and beta; the sorted order is uniquely determined. -/
theorem sort_deterministic_total_witness :
    (sortMDByDate [pBeta, pAlpha]).Perm [pBeta, pAlpha] ∧
      [pAlpha, pBeta] = sortMDByDate [pBeta, pAlpha] :=
  ⟨(sort_deterministic_total [pBeta, pAlpha]).1,
    (sort_deterministic_total [pBeta, pAlpha]).2.2.2 [pAlpha, pBeta]
      (by decide) (by decide) (by decide)⟩

/-- Claim C1 (counterexample): a card generated with no date (`skipDate`, so
the date string is empty) still yields a vector document containing the date
paragraph element — blank, but present — refuting that the document contains
no date element at all. -/
theorem card_without_date_contains_date_element :
    (GET svgBytes formatMillis ⟨0, true, "Hello"⟩).body = svgBytes (markup "Hello" "") ∧
      dateParagraph "" ∈ markup "Hello" "" :=
  ⟨rfl, by decide⟩

/-- Claim C1 (amended): when the date is absent, the date string interpolated
into the template is empty and the produced vector document still contains the
date paragraph element with empty text — a blank date line, not an omitted
one. -/
theorem card_without_date_renders_blank_line
    (rasterize : List SvgElement → List Nat) (fmt : Int → String)
    (p : CardProps) (hskip : p.skipDate = true) :
    postDateString p fmt = "" ∧
      (GET rasterize fmt p).body = rasterize (markup p.title "") ∧
      dateParagraph "" ∈ markup p.title "" :=
  skipDate_blank_line rasterize fmt p hskip

/-- Witness for the amended C1 at a concrete input. -/
theorem card_without_date_renders_blank_line_witness :
    (⟨0, true, "Hello"⟩ : CardProps).skipDate = true ∧
      postDateString ⟨0, true, "Hello"⟩ formatMillis = "" ∧
      (GET svgBytes formatMillis ⟨0, true, "Hello"⟩).body = svgBytes (markup "Hello" "") ∧
      dateParagraph "" ∈ markup "Hello" "" :=
  ⟨rfl, card_without_date_renders_blank_line svgBytes formatMillis ⟨0, true, "Hello"⟩ rfl⟩

/-- Claim C6: the card pipeline is deterministic — identical props (title,
date, skipDate) with the same rasterizer and formatter produce identical
responses, byte for byte. -/
theorem generateCard_deterministic (rasterize : List SvgElement → List Nat)
    (fmt : Int → String) (p q : CardProps) (ht : p.title = q.title)
    (hd : p.pubDate = q.pubDate) (hs : p.skipDate = q.skipDate) :
    GET rasterize fmt p = GET rasterize fmt q := by
  cases p
  cases q
  cases ht
  cases hd
  cases hs
  rfl

/-- Witness for C6: generating the card for title Hello World and the date
2024-01-01 twice yields identical bytes. -/
theorem generateCard_deterministic_witness :
    GET svgBytes formatMillis ⟨1704067200000, false, "Hello World"⟩
      = GET svgBytes formatMillis ⟨1704067200000, false, "Hello World"⟩ :=
  generateCard_deterministic svgBytes formatMillis
    ⟨1704067200000, false, "Hello World"⟩ ⟨1704067200000, false, "Hello World"⟩
    rfl rfl rfl

/-- Claim C7 (counterexample): the empty-title card with no date contains an
empty title heading and also a blank date paragraph element — there is a
(blank) date line, refuting the claim that the card has no date line. -/
theorem empty_title_card_has_blank_date_line :
    (GET svgBytes formatMillis ⟨0, true, ""⟩).body = svgBytes (markup "" "") ∧
      titleHeading "" ∈ markup "" "" ∧
      dateParagraph "" ∈ markup "" "" :=
  ⟨rfl, by decide, by decide⟩

/-- Claim C7 (amended): card generation is total on the title: for every title
string, including the empty one, the handler produces an image/png response
whose document embeds the title heading (possibly with empty text) and a
blank — but present — date paragraph. -/
theorem generateCard_total_on_title (rasterize : List SvgElement → List Nat)
    (fmt : Int → String) (title : String) :
    (GET rasterize fmt ⟨0, true, title⟩).contentType = "image/png" ∧
      (GET rasterize fmt ⟨0, true, title⟩).body = rasterize (markup title "") ∧
      titleHeading title ∈ markup title "" ∧
      dateParagraph "" ∈ markup title "" := by
  refine ⟨rfl, ?_, ?_, ?_⟩
  · simp only [GET, postDateString]
    rfl
  · simp [markup, titleHeading]
  · simp [markup, dateParagraph]

/-- Claim C9: the card endpoint's enumeration is exactly the loader's output
with `ogImage` posts dropped, mapped to card props, plus one synthetic entry:
slug index, the fixed home-page title, and a skipped (never rendered) date. -/
theorem og_enumeration_spec (now : Int) (production : Bool) (store : List Post) :
    ogGetStaticPaths now production store
        = ((getAllPosts production store).filter
              (fun p => !(ogTruthy p.data.ogImage))).map toCardPath
          ++ [toCardPath (indexPost now)] ∧
      (toCardPath (indexPost now)).slug = "index" ∧
      (toCardPath (indexPost now)).props.title = "LLMs, RAGs, Agents and Applied AI" ∧
      (toCardPath (indexPost now)).props.skipDate = true ∧
      (∀ fmt : Int → String, postDateString (toCardPath (indexPost now)).props fmt = "") := by
  have hskip : (toCardPath (indexPost now)).props.skipDate = true := by
    have : jsStartsWith "index" "/content" = false := by decide
    simp [toCardPath, indexPost, this]
  refine ⟨?_, rfl, rfl, hskip, ?_⟩
  · rw [ogGetStaticPaths, List.filter_append, List.map_append]
    have : List.filter (fun p => !(ogTruthy p.data.ogImage)) [indexPost now]
        = [indexPost now] := by
      simp [indexPost, ogTruthy]
    rw [this, List.map_singleton]
  · intro fmt
    simp [postDateString, hskip]

/-- Claim C5: a post declaring an external `ogImage` is excluded from the card
endpoint's enumeration (assuming its slug is not shared with an enumerated
post and differs from the reserved index slug), and requesting its card
returns not-found. -/
theorem ogImage_posts_excluded (rasterize : List SvgElement → List Nat)
    (fmt : Int → String) (now : Int) (production : Bool) (store : List Post)
    (p : Post) (hmem : p ∈ store) (hog : ogTruthy p.data.ogImage = true)
    (huniq : ∀ q ∈ store, q.slug = p.slug → ogTruthy q.data.ogImage = true)
    (hidx : p.slug ≠ "index") :
    (∀ cp ∈ ogGetStaticPaths now production store, cp.slug ≠ p.slug) ∧
      requestCard rasterize fmt now production store p.slug = .notFound := by
  have habs : ∀ cp ∈ ogGetStaticPaths now production store, cp.slug ≠ p.slug := by
    intro cp hcp
    rw [ogGetStaticPaths] at hcp
    obtain ⟨q, hq, rfl⟩ := List.mem_map.mp hcp
    have hq' := List.mem_filter.mp hq
    rcases List.mem_append.mp hq'.1 with hqs | hqi
    · intro hslug
      have hqstore : q ∈ store := getAllPosts_subset production store hqs
      have hogq : ogTruthy q.data.ogImage = true := huniq q hqstore hslug
      have hfalse := hq'.2
      rw [hogq] at hfalse
      simp at hfalse
    · have hqe : q = indexPost now := by simpa using hqi
      subst hqe
      intro h
      exact hidx h.symm
  refine ⟨habs, ?_⟩
  have hnone : (ogGetStaticPaths now production store).find?
      (fun cp => cp.slug == p.slug) = none := by
    rw [List.find?_eq_none]
    intro cp hcp
    simp [habs cp hcp]
  simp only [requestCard, hnone]

/-- Witness for C5 at a concrete input: the post with slug `c` declares an
`ogImage`; requesting its card is not-found. -/
theorem ogImage_posts_excluded_witness :
    postC ∈ [postB, postC] ∧
      requestCard svgBytes formatMillis 0 true [postB, postC] "c" = .notFound :=
  ⟨by decide,
    (ogImage_posts_excluded svgBytes formatMillis 0 true [postB, postC] postC
      (by decide) (by decide) (by decide) (by decide)).2⟩

/-- Claim C10: when no stored slug starts with "/content" (as holds for every
content-collection slug), every props object the card route enumerates has
skipDate true, so the date string in `GET` is always empty and every generated
card's document carries a blank date paragraph, never an actual date. -/
theorem og_cards_never_render_date (rasterize : List SvgElement → List Nat)
    (fmt : Int → String) (now : Int) (production : Bool) (store : List Post)
    (hslugs : ∀ p ∈ store, jsStartsWith p.slug "/content" = false) :
    ∀ cp ∈ ogGetStaticPaths now production store,
      cp.props.skipDate = true ∧
        postDateString cp.props fmt = "" ∧
        (GET rasterize fmt cp.props).body = rasterize (markup cp.props.title "") ∧
        dateParagraph "" ∈ markup cp.props.title "" := by
  intro cp hcp
  rw [ogGetStaticPaths] at hcp
  obtain ⟨q, hq, rfl⟩ := List.mem_map.mp hcp
  have hq1 := (List.mem_filter.mp hq).1
  have hskip : (toCardPath q).props.skipDate = true := by
    rcases List.mem_append.mp hq1 with hqs | hqi
    · have hns := hslugs q (getAllPosts_subset production store hqs)
      simp [toCardPath, hns]
    · have hqe : q = indexPost now := by simpa using hqi
      subst hqe
      have : jsStartsWith "index" "/content" = false := by decide
      simp [toCardPath, indexPost, this]
  obtain ⟨h1, h2, h3⟩ := skipDate_blank_line rasterize fmt (toCardPath q).props hskip
  exact ⟨hskip, h1, h2, h3⟩

/-- Witness for C10 at a concrete input. -/
theorem og_cards_never_render_date_witness :
    (∀ p ∈ [postB], jsStartsWith p.slug "/content" = false) ∧
      toCardPath postB ∈ ogGetStaticPaths 0 true [postB] ∧
      (toCardPath postB).props.skipDate = true :=
  ⟨by decide, by decide,
    (og_cards_never_render_date svgBytes formatMillis 0 true [postB] (by decide)
      (toCardPath postB) (by decide)).1⟩

/-- Claim C8: a raw post whose `publishDate` is missing or unparsable fails
the whole load with a `ContentValidationError` whose slug identifies an
offending post, and no listing at all is produced. -/
theorem loadPosts_fail_fast (parseDate : String → Option Int)
    (raw : List RawPost) (rp : RawPost) (hmem : rp ∈ raw)
    (hbad : rp.publishDate.bind parseDate = none) :
    (∃ e, loadPosts parseDate raw = .error e ∧
        ∃ rq ∈ raw, rq.publishDate.bind parseDate = none ∧ e.slug = rq.slug) ∧
      ∀ ps, loadPosts parseDate raw ≠ .ok ps := by
  induction raw with
  | nil => cases hmem
  | cons r rest ih =>
    by_cases h : r.publishDate.bind parseDate = none
    · refine ⟨⟨⟨r.slug⟩, ?_, r, List.mem_cons_self r rest, h, rfl⟩, ?_⟩
      · simp [loadPosts, h]
      · intro ps
        simp [loadPosts, h]
    · have hrp : rp ∈ rest := by
        rcases List.mem_cons.mp hmem with he | he
        · rw [he] at hbad
          exact absurd hbad h
        · exact he
      obtain ⟨⟨e, herr, rq, hrq, hbadq, hslug⟩, hok⟩ := ih hrp
      obtain ⟨d, hd⟩ := Option.ne_none_iff_exists'.mp h
      constructor
      · exact ⟨e, by simp [loadPosts, hd, herr], rq,
          List.mem_cons_of_mem _ hrq, hbadq, hslug⟩
      · intro ps
        simp [loadPosts, hd, herr]

/-- Witness for C8 at a concrete input: a store with one good and one bad raw
post fails the whole load naming the bad slug. -/
theorem loadPosts_fail_fast_witness :
    rawBad ∈ [rawGood, rawBad] ∧
      (∃ e, loadPosts demoParseDate [rawGood, rawBad] = .error e ∧
          ∃ rq ∈ [rawGood, rawBad],
            rq.publishDate.bind demoParseDate = none ∧ e.slug = rq.slug) ∧
      ∀ ps, loadPosts demoParseDate [rawGood, rawBad] ≠ .ok ps :=
  ⟨by decide,
    loadPosts_fail_fast demoParseDate [rawGood, rawBad] rawBad (by decide) (by decide)⟩

end Blog
